import Mathlib

/-!
Verification development for the habit-tracker backend's streak
computation and check-in consistency subsystem
(`src/api/routers/habits.py`, `src/api/models.py`).

Calendar dates are modelled as integers (days since an arbitrary epoch):
the only date operation the code performs is the difference
`checkins[i-1] - checkins[i] == timedelta(days=1)`, which becomes integer
subtraction. Entity ids are modelled as naturals.
-/

namespace HabitBuddy

/-- The `habit_streaks` row (`HabitStreak` in models.py): current streak,
longest streak, last check-in date (nullable). -/
structure HabitStreak where
  habit_id : Nat
  current_streak : Nat
  longest_streak : Nat
  last_checkin_date : Option Int
deriving Repr, DecidableEq

/-- The `habits` row (`Habit` in models.py); only the attributes relevant to
the claims are kept, in particular `schedule_days` and `reminder_time`
which the streak engine must ignore. -/
structure Habit where
  id : Nat
  user_id : Nat
  title : String
  schedule_days : Option (List Nat)
  reminder_time : Option Nat
deriving Repr, DecidableEq

/-- The `habit_checkins` row (`HabitCheckin` in models.py). -/
structure HabitCheckin where
  habit_id : Nat
  user_id : Nat
  checkin_date : Int
  value : Option Int
  note : Option String
deriving Repr, DecidableEq

/-- The relational store: the three tables the subsystem touches. -/
structure DB where
  habits : List Habit
  checkins : List HabitCheckin
  streaks : List HabitStreak
deriving Repr, DecidableEq

/-- Client-visible error outcomes of the habit endpoints:
HTTP 404 (`Habit not found`) and HTTP 409 (`Already checked in for this date`). -/
inductive ApiError where
  | notFound
  | conflict
deriving Repr, DecidableEq

/-- The consecutive-day scan of `_recompute_streak` (habits.py lines 52-57):
`current = 1`, then walk the descending date list and count while each
consecutive pair differs by exactly one day, stopping at the first gap. -/
def streakRun : List Int → Nat
  | [] => 0
  | [_] => 1
  | a :: b :: rest => if a - b = 1 then 1 + streakRun (b :: rest) else 1

/-- The expression `db.get(HabitStreak, habit.id).longest_streak if db.get(...) else 0`
(habits.py line 59). -/
def prevLongestOf : Option HabitStreak → Nat
  | none => 0
  | some s => s.longest_streak

/-- The pure core of `_recompute_streak` (habits.py lines 42-68): given the
descending date window and the habit's existing streak row (if any),
produce the streak row that is written back. -/
def recomputeStreakPure (checkins : List Int) (prev : Option HabitStreak) (hid : Nat) :
    HabitStreak :=
  match checkins with
  | [] =>
    let streak := prev.getD ⟨hid, 0, 0, none⟩
    { streak with current_streak := 0, last_checkin_date := none }
  | d :: _ =>
    let current := streakRun checkins
    let longest := max current (prevLongestOf prev)
    let streak := prev.getD ⟨hid, 0, 0, none⟩
    { streak with
        current_streak := current
        longest_streak := max streak.longest_streak longest
        last_checkin_date := some d }

/-- The `ORDER BY checkin_date DESC` clause: sort a date list descending. -/
def sortDesc (l : List Int) : List Int :=
  List.insertionSort (· ≥ ·) l

/-- The check-in date query of `_recompute_streak` (habits.py lines 32-41):
dates of the habit's check-ins, descending, limited to 400. -/
def checkinDates (db : DB) (hid : Nat) : List Int :=
  (sortDesc ((db.checkins.filter (fun c => c.habit_id == hid)).map
    (fun c => c.checkin_date))).take 400

/-- The lookup `db.get(HabitStreak, habit_id)`: the streak row keyed by habit id. -/
def findStreak (db : DB) (hid : Nat) : Option HabitStreak :=
  db.streaks.find? (fun s => s.habit_id == hid)

/-- Write back a streak row keyed by its habit id (the `db.add`/`db.commit`
of `_recompute_streak`). -/
def setStreak (db : DB) (s : HabitStreak) : DB :=
  { db with streaks := s :: db.streaks.filter (fun t => !(t.habit_id == s.habit_id)) }

/-- The function `_recompute_streak(db, habit)` (habits.py lines 30-68): fetch the 400
most recent check-in dates, recompute, persist, and return the streak row. -/
def recomputeStreak (db : DB) (habit : Habit) : DB × HabitStreak :=
  let s := recomputeStreakPure (checkinDates db habit.id) (findStreak db habit.id) habit.id
  (setStreak db s, s)

/-- The function `_get_user_habit(db, user_id, habit_id)` (habits.py lines 23-27):
the habit with the given id owned by the given user, else a 404. -/
def getUserHabit (db : DB) (uid hid : Nat) : Option Habit :=
  db.habits.find? (fun h => h.id == hid && h.user_id == uid)

/-- The endpoint `create_habit` (habits.py lines 89-101): persist the habit, then ensure
a zeroed streak row exists. The fresh habit id is a parameter (the database
generates it). -/
def createHabit (db : DB) (uid hid : Nat) (title : String)
    (schedule_days : Option (List Nat)) (reminder_time : Option Nat) : DB × Habit :=
  let habit : Habit := ⟨hid, uid, title, schedule_days, reminder_time⟩
  let db1 : DB := { db with habits := habit :: db.habits }
  let db2 := if findStreak db1 habit.id = none
    then { db1 with streaks := ⟨habit.id, 0, 0, none⟩ :: db1.streaks }
    else db1
  (db2, habit)

/-- The endpoint `get_streak` (habits.py lines 157-166): ownership check, then return the
streak row, lazily creating a zeroed one when absent. -/
def getStreak (db : DB) (uid hid : Nat) : DB × Except ApiError HabitStreak :=
  match getUserHabit db uid hid with
  | none => (db, .error .notFound)
  | some habit =>
    match findStreak db habit.id with
    | some s => (db, .ok s)
    | none =>
      let s : HabitStreak := ⟨habit.id, 0, 0, none⟩
      ({ db with streaks := s :: db.streaks }, .ok s)

/-- The endpoint `create_checkin` (habits.py lines 176-201): ownership check (404),
insert the check-in — the unique constraint on (habit_id, checkin_date)
makes the commit raise `IntegrityError` when a row for the pair exists,
which is rolled back and surfaced as a 409 — then recompute the streak. -/
def createCheckin (db : DB) (uid hid : Nat) (d : Int)
    (value : Option Int) (note : Option String) : DB × Except ApiError HabitCheckin :=
  match getUserHabit db uid hid with
  | none => (db, .error .notFound)
  | some habit =>
    if db.checkins.any (fun c => c.habit_id == habit.id && c.checkin_date == d) then
      (db, .error .conflict)
    else
      let c : HabitCheckin := ⟨habit.id, uid, d, value, note⟩
      let db1 : DB := { db with checkins := c :: db.checkins }
      ((recomputeStreak db1 habit).1, .ok c)

/-- A strictly descending list of consecutive dates `[n, n-1, ..., 1, 0]`
(length `n + 1`), used to exercise long unbroken streaks. -/
def consecDesc : Nat → List Int
  | 0 => [(0 : Int)]
  | n + 1 => ((n : Int) + 1) :: consecDesc n

/-! ### Field lemmas for the pure streak engine -/

theorem streakRun_pos (a : Int) (l : List Int) : 1 ≤ streakRun (a :: l) := by
  cases l with
  | nil => simp [streakRun]
  | cons b t => simp only [streakRun]; split <;> omega

theorem streakRun_le_length : ∀ l : List Int, streakRun l ≤ l.length
  | [] => by simp [streakRun]
  | [_] => by simp [streakRun]
  | a :: b :: t => by
    have ih := streakRun_le_length (b :: t)
    simp only [streakRun, List.length_cons] at ih ⊢
    split <;> omega

theorem recompute_current (l : List Int) (prev : Option HabitStreak) (hid : Nat) :
    (recomputeStreakPure l prev hid).current_streak = streakRun l := by
  cases l <;> rfl

theorem recompute_last (l : List Int) (prev : Option HabitStreak) (hid : Nat) :
    (recomputeStreakPure l prev hid).last_checkin_date = l.head? := by
  cases l <;> rfl

theorem recompute_longest (l : List Int) (prev : Option HabitStreak) (hid : Nat) :
    (recomputeStreakPure l prev hid).longest_streak
      = max (prevLongestOf prev) (streakRun l) := by
  cases l <;> cases prev <;> simp [recomputeStreakPure, prevLongestOf, streakRun] <;> omega

theorem recompute_habit_id (l : List Int) (prev : Option HabitStreak) (hid : Nat) :
    (recomputeStreakPure l prev hid).habit_id
      = (prev.getD ⟨hid, 0, 0, none⟩).habit_id := by
  cases l <;> cases prev <;> rfl

theorem HabitStreak.ext {s t : HabitStreak} (h1 : s.habit_id = t.habit_id)
    (h2 : s.current_streak = t.current_streak) (h3 : s.longest_streak = t.longest_streak)
    (h4 : s.last_checkin_date = t.last_checkin_date) : s = t := by
  cases s; cases t; simp_all

theorem streakRun_consec : ∀ (l : List Int) (i : Nat), i + 1 < streakRun l →
    l.getD i 0 - l.getD (i + 1) 0 = 1
  | [], _, h => by simp [streakRun] at h
  | [_], _, h => by simp [streakRun] at h
  | a :: b :: t, i, h => by
    simp only [streakRun] at h
    split at h
    · rename_i hab
      match i with
      | 0 => simpa using hab
      | j + 1 =>
        have ih := streakRun_consec (b :: t) j (by omega)
        simpa using ih
    · omega

theorem streakRun_stops : ∀ l : List Int, streakRun l = l.length ∨
    l.getD (streakRun l - 1) 0 - l.getD (streakRun l) 0 ≠ 1
  | [] => .inl rfl
  | [_] => .inl rfl
  | a :: b :: t => by
    have ih := streakRun_stops (b :: t)
    have hpos := streakRun_pos b t
    simp only [streakRun]
    split
    · rename_i hab
      rcases ih with h | h
      · exact .inl (by simp [h]; omega)
      · right
        have e1 : 1 + streakRun (b :: t) - 1 = (streakRun (b :: t) - 1) + 1 := by omega
        have e2 : 1 + streakRun (b :: t) = streakRun (b :: t) + 1 := by omega
        rw [e1, e2, List.getD_cons_succ, List.getD_cons_succ]
        exact h
    · rename_i hab
      exact .inr (by simpa using hab)

theorem streakRun_chain : ∀ l : List Int,
    l.Chain' (fun x y => x - y = 1) → streakRun l = l.length
  | [], _ => rfl
  | [_], _ => rfl
  | a :: b :: t, h => by
    rw [List.chain'_cons] at h
    have ih := streakRun_chain (b :: t) h.2
    simp [streakRun, h.1, ih]
    omega

theorem streakRun_take : ∀ (l : List Int) (k : Nat),
    streakRun (l.take k) = min (streakRun l) k
  | [], k => by simp [streakRun]
  | [a], k => by
    cases k with
    | zero => simp [streakRun]
    | succ j => simp [streakRun]
  | a :: b :: t, k => by
    match k with
    | 0 => simp [streakRun]
    | 1 =>
      have := streakRun_pos b t
      simp only [List.take_succ_cons, List.take_zero, streakRun]
      split <;> omega
    | j + 2 =>
      have ih := streakRun_take (b :: t) (j + 1)
      have hpos := streakRun_pos b t
      simp only [List.take_succ_cons, streakRun] at ih ⊢
      split <;> omega

theorem consecDesc_head : ∀ n : Nat, ∃ t, consecDesc n = (n : Int) :: t
  | 0 => ⟨[], rfl⟩
  | n + 1 => ⟨consecDesc n, by rw [consecDesc]; norm_num⟩

theorem streakRun_consecDesc : ∀ n : Nat, streakRun (consecDesc n) = n + 1
  | 0 => rfl
  | n + 1 => by
    obtain ⟨t, ht⟩ := consecDesc_head n
    have ih := streakRun_consecDesc n
    rw [ht] at ih
    rw [show consecDesc (n + 1) = ((n : Int) + 1) :: consecDesc n from rfl, ht]
    simp only [streakRun]
    rw [if_pos (by ring)]
    omega

theorem findStreak_habit_id {db : DB} {hid : Nat} {s : HabitStreak}
    (h : findStreak db hid = some s) : s.habit_id = hid := by
  have := List.find?_some h
  simpa using this

theorem getUserHabit_ids {db : DB} {uid hid : Nat} {habit : Habit}
    (h : getUserHabit db uid hid = some habit) : habit.id = hid ∧ habit.user_id = uid := by
  have := List.find?_some h
  simpa using this

theorem recompute_habit_id_of_find (db : DB) (hid : Nat) :
    (recomputeStreakPure (checkinDates db hid) (findStreak db hid) hid).habit_id = hid := by
  rw [recompute_habit_id]
  cases hp : findStreak db hid with
  | none => rfl
  | some s => simpa using findStreak_habit_id hp

theorem recomputeStreakPure_idem (l : List Int) (prev : Option HabitStreak)
    (hid hid' : Nat) :
    recomputeStreakPure l (some (recomputeStreakPure l prev hid)) hid'
      = recomputeStreakPure l prev hid := by
  apply HabitStreak.ext
  · rw [recompute_habit_id]; rfl
  · rw [recompute_current, recompute_current]
  · have hlg := recompute_longest l prev hid
    rw [recompute_longest]
    simp only [prevLongestOf]
    omega
  · rw [recompute_last, recompute_last]

theorem sortDesc_head_of_max (d : Int) (l : List Int) (hmax : ∀ x ∈ l, x < d) :
    ∃ t, sortDesc (d :: l) = d :: t := by
  have hperm : List.Perm (sortDesc (d :: l)) (d :: l) := List.perm_insertionSort _ _
  have hsort : List.Sorted (· ≥ ·) (sortDesc (d :: l)) := List.sorted_insertionSort _ _
  have hmem : d ∈ sortDesc (d :: l) := hperm.mem_iff.mpr (List.mem_cons_self d l)
  cases he : sortDesc (d :: l) with
  | nil => rw [he] at hmem; simp at hmem
  | cons hd t =>
    refine ⟨t, ?_⟩
    rw [he] at hmem hsort hperm
    have hh : hd ∈ d :: l := hperm.mem_iff.mp (List.mem_cons_self hd t)
    rcases List.mem_cons.mp hh with rfl | hl
    · rfl
    · rcases List.mem_cons.mp hmem with rfl | hdt
      · rfl
      · have h1 : hd ≥ d := List.rel_of_sorted_cons hsort d hdt
        have h2 : hd < d := hmax hd hl
        omega

theorem checkinDates_head_of_max (db : DB) (hid : Nat) (c : HabitCheckin)
    (hcid : c.habit_id = hid)
    (hmax : ∀ x ∈ db.checkins, x.habit_id = hid → x.checkin_date < c.checkin_date) :
    (checkinDates { db with checkins := c :: db.checkins } hid).head?
      = some c.checkin_date := by
  have hfilter : ({ db with checkins := c :: db.checkins } : DB).checkins.filter
        (fun x => x.habit_id == hid)
      = c :: db.checkins.filter (fun x => x.habit_id == hid) := by
    simp [List.filter_cons, hcid]
  obtain ⟨t, ht⟩ := sortDesc_head_of_max c.checkin_date
    ((db.checkins.filter (fun x => x.habit_id == hid)).map (fun x => x.checkin_date))
    (by
      intro x hx
      obtain ⟨y, hy, rfl⟩ := List.mem_map.mp hx
      have hyf := List.mem_filter.mp hy
      exact hmax y hyf.1 (by simpa using hyf.2))
  rw [checkinDates, hfilter, List.map_cons, ht]
  rfl

/-! ### Claim theorems -/

/-- C1: for every non-empty strictly descending list of check-in dates,
the streak computation returns `last_date` = the most recent date, and
`current` = the length of the maximal prefix run in which each consecutive
pair of dates differs by exactly one calendar day: `current` is at least 1,
at most the list length, every adjacent pair inside the run differs by one
day, the run stops at the first gap or the end of the list, and for a
gap-free list `current` equals the full length. -/
theorem c1_current_is_maximal_prefix_run (d : Int) (rest : List Int)
    (prev : Option HabitStreak) (hid : Nat)
    (hsorted : (d :: rest).Chain' (· > ·)) :
    (recomputeStreakPure (d :: rest) prev hid).last_checkin_date = some d ∧
    1 ≤ (recomputeStreakPure (d :: rest) prev hid).current_streak ∧
    (recomputeStreakPure (d :: rest) prev hid).current_streak ≤ (d :: rest).length ∧
    (∀ i, i + 1 < (recomputeStreakPure (d :: rest) prev hid).current_streak →
      (d :: rest).getD i 0 - (d :: rest).getD (i + 1) 0 = 1) ∧
    ((recomputeStreakPure (d :: rest) prev hid).current_streak = (d :: rest).length ∨
      (d :: rest).getD ((recomputeStreakPure (d :: rest) prev hid).current_streak - 1) 0 -
        (d :: rest).getD ((recomputeStreakPure (d :: rest) prev hid).current_streak) 0 ≠ 1) ∧
    ((d :: rest).Chain' (fun x y => x - y = 1) →
      (recomputeStreakPure (d :: rest) prev hid).current_streak = (d :: rest).length) := by
  simp only [recompute_current, recompute_last, List.head?_cons]
  exact ⟨trivial, streakRun_pos d rest, streakRun_le_length _,
    fun i hi => streakRun_consec _ i hi, streakRun_stops _,
    fun hc => streakRun_chain _ hc⟩

/-- Witness for C1 at the concrete date list [3, 2, 1]. -/
theorem c1_witness :
    (recomputeStreakPure [(3 : Int), 2, 1] none 7).last_checkin_date = some 3 ∧
    (recomputeStreakPure [(3 : Int), 2, 1] none 7).current_streak = 3 := by
  have h := c1_current_is_maximal_prefix_run 3 [2, 1] none 7
    (by norm_num [List.chain'_cons])
  exact ⟨h.1, by simpa using h.2.2.2.2.2 (by norm_num [List.chain'_cons])⟩

/-- C2: for every date list and previous streak row, the recomputed
`longest` equals `max(previous_longest, current)`; in particular it never
falls below the stored previous longest value nor below `current`. -/
theorem c2_longest_is_max (l : List Int) (prev : Option HabitStreak) (hid : Nat) :
    (recomputeStreakPure l prev hid).longest_streak
      = max (prevLongestOf prev) ((recomputeStreakPure l prev hid).current_streak) ∧
    prevLongestOf prev ≤ (recomputeStreakPure l prev hid).longest_streak ∧
    (recomputeStreakPure l prev hid).current_streak
      ≤ (recomputeStreakPure l prev hid).longest_streak := by
  rw [recompute_longest, recompute_current]
  omega

/-- C3: refreshing a habit whose check-in set is empty writes
`current = 0` and `last_date = null` and leaves the stored longest streak
value unchanged. -/
theorem c3_empty_checkins_refresh (db : DB) (habit : Habit)
    (hempty : db.checkins.filter (fun c => c.habit_id == habit.id) = []) :
    (recomputeStreak db habit).2.current_streak = 0 ∧
    (recomputeStreak db habit).2.last_checkin_date = none ∧
    (recomputeStreak db habit).2.longest_streak
      = prevLongestOf (findStreak db habit.id) := by
  have hdates : checkinDates db habit.id = [] := by
    simp [checkinDates, hempty, sortDesc]
  simp only [recomputeStreak]
  rw [hdates, recompute_current, recompute_last, recompute_longest]
  simp [streakRun]

/-- Witness for C3: a habit whose streak row previously reached
`longest = 10` and with zero check-ins refreshes to
`current = 0, longest = 10, last_date = null`. -/
theorem c3_witness :
    (recomputeStreak ⟨[⟨7, 1, "run", none, none⟩], [], [⟨7, 4, 10, some 3⟩]⟩
        ⟨7, 1, "run", none, none⟩).2.current_streak = 0 ∧
    (recomputeStreak ⟨[⟨7, 1, "run", none, none⟩], [], [⟨7, 4, 10, some 3⟩]⟩
        ⟨7, 1, "run", none, none⟩).2.last_checkin_date = none ∧
    (recomputeStreak ⟨[⟨7, 1, "run", none, none⟩], [], [⟨7, 4, 10, some 3⟩]⟩
        ⟨7, 1, "run", none, none⟩).2.longest_streak = 10 := by
  have h := c3_empty_checkins_refresh
    ⟨[⟨7, 1, "run", none, none⟩], [], [⟨7, 4, 10, some 3⟩]⟩ ⟨7, 1, "run", none, none⟩ rfl
  exact ⟨h.1, h.2.1, by simpa using h.2.2⟩

/-- C5 counterexample: for 401 consecutive daily check-ins the 400-entry
window computes `current = 400` while the full date list computes
`current = 401`, so the windowed result differs from the full result. -/
theorem c5_counterexample :
    (recomputeStreakPure ((consecDesc 400).take 400) none 0).current_streak ≠
    (recomputeStreakPure (consecDesc 400) none 0).current_streak := by
  rw [recompute_current, recompute_current, streakRun_take, streakRun_consecDesc]
  omega

/-- C5 (amended): the 400-entry window yields the same streak result as the
full date list whenever the consecutive-day run from the most recent date
is at most 400 — in particular whenever the habit has at most 400 check-ins. -/
theorem c5_window_equiv (l : List Int) (prev : Option HabitStreak) (hid : Nat)
    (h : streakRun l ≤ 400) :
    recomputeStreakPure (l.take 400) prev hid = recomputeStreakPure l prev hid := by
  apply HabitStreak.ext
  · rw [recompute_habit_id, recompute_habit_id]
  · rw [recompute_current, recompute_current, streakRun_take]; omega
  · rw [recompute_longest, recompute_longest, streakRun_take]
    congr 1
    omega
  · rw [recompute_last, recompute_last]
    cases l with
    | nil => rfl
    | cons d rest => rfl

/-- Witness for C5 (amended) at the concrete date list [3, 2, 1]. -/
theorem c5_witness :
    recomputeStreakPure ([(3 : Int), 2, 1].take 400) none 0
      = recomputeStreakPure [(3 : Int), 2, 1] none 0 :=
  c5_window_equiv [(3 : Int), 2, 1] none 0 (by decide)

/-- C9: the streak computation is a deterministic function of exactly the
date list and the previous longest value — refreshing two habits that
differ only in `schedule_days` and `reminder_time` gives identical results,
and two previous streak rows with equal `longest_streak` yield equal
`current`, `longest` and `last_date`. -/
theorem c9_deterministic_schedule_independent (db : DB) (hb : Habit)
    (sd sd' : Option (List Nat)) (rt rt' : Option Nat)
    (l : List Int) (prev prev' : Option HabitStreak) (hid : Nat)
    (hp : prevLongestOf prev = prevLongestOf prev') :
    recomputeStreak db { hb with schedule_days := sd, reminder_time := rt }
      = recomputeStreak db { hb with schedule_days := sd', reminder_time := rt' } ∧
    (recomputeStreakPure l prev hid).current_streak
      = (recomputeStreakPure l prev' hid).current_streak ∧
    (recomputeStreakPure l prev hid).longest_streak
      = (recomputeStreakPure l prev' hid).longest_streak ∧
    (recomputeStreakPure l prev hid).last_checkin_date
      = (recomputeStreakPure l prev' hid).last_checkin_date := by
  refine ⟨rfl, ?_, ?_, ?_⟩
  · rw [recompute_current, recompute_current]
  · rw [recompute_longest, recompute_longest, hp]
  · rw [recompute_last, recompute_last]

/-- C4: when a check-in already exists for a (habit, date) pair, a
create-check-in request by the owner for the same pair returns a Conflict
(HTTP 409), the database is left unchanged — so the check-in table still
contains exactly one row for the pair — and the habit's streak row is
untouched. -/
theorem c4_duplicate_conflict (db : DB) (uid hid : Nat) (d : Int)
    (v : Option Int) (note : Option String) (habit : Habit)
    (howner : getUserHabit db uid hid = some habit)
    (hdup : (db.checkins.filter
      (fun c => c.habit_id == hid && c.checkin_date == d)).length = 1) :
    createCheckin db uid hid d v note = (db, .error .conflict) ∧
    ((createCheckin db uid hid d v note).1.checkins.filter
      (fun c => c.habit_id == hid && c.checkin_date == d)).length = 1 ∧
    findStreak (createCheckin db uid hid d v note).1 hid = findStreak db hid := by
  have hids := getUserHabit_ids howner
  have hex : ∃ c ∈ db.checkins, (c.habit_id == hid && c.checkin_date == d) = true := by
    obtain ⟨c, hc⟩ := List.exists_mem_of_length_pos
      (l := db.checkins.filter (fun c => c.habit_id == hid && c.checkin_date == d))
      (by omega)
    exact ⟨c, (List.mem_filter.mp hc).1, (List.mem_filter.mp hc).2⟩
  have hany : db.checkins.any
      (fun c => c.habit_id == habit.id && c.checkin_date == d) = true := by
    rw [hids.1]
    exact List.any_eq_true.mpr hex
  have hmain : createCheckin db uid hid d v note = (db, .error .conflict) := by
    simp [createCheckin, howner, hany]
  exact ⟨hmain, by rw [hmain]; exact hdup, by rw [hmain]⟩

/-- Witness for C4 at a concrete state holding one habit and one check-in. -/
theorem c4_witness :
    createCheckin ⟨[⟨1, 2, "t", none, none⟩], [⟨1, 2, 5, none, none⟩], []⟩ 2 1 5 none none
      = (⟨[⟨1, 2, "t", none, none⟩], [⟨1, 2, 5, none, none⟩], []⟩, .error .conflict) :=
  (c4_duplicate_conflict ⟨[⟨1, 2, "t", none, none⟩], [⟨1, 2, 5, none, none⟩], []⟩
    2 1 5 none none ⟨1, 2, "t", none, none⟩ rfl rfl).1

/-- C6: running the streak refresh twice in a row, with no check-in
mutation in between, returns after the second run a streak row identical
to the one the first run produced. -/
theorem c6_refresh_idempotent (db : DB) (habit : Habit) :
    (recomputeStreak (recomputeStreak db habit).1 habit).2
      = (recomputeStreak db habit).2 := by
  have hid1 := recompute_habit_id_of_find db habit.id
  show recomputeStreakPure (checkinDates (recomputeStreak db habit).1 habit.id)
    (findStreak (recomputeStreak db habit).1 habit.id) habit.id = _
  have hdates : checkinDates (recomputeStreak db habit).1 habit.id
      = checkinDates db habit.id := rfl
  have hfind : findStreak (recomputeStreak db habit).1 habit.id
      = some (recomputeStreakPure (checkinDates db habit.id)
          (findStreak db habit.id) habit.id) :=
    List.find?_cons_of_pos _ (by simpa using hid1)
  rw [hdates, hfind]
  exact recomputeStreakPure_idem _ _ _ _

/-- C7: when no habit with the requested id is owned by the caller —
whether the id does not exist at all or the habit belongs to a different
user — both check-in creation and streak reading fail with NotFound and
leave the state unchanged, so the two cases are indistinguishable. -/
theorem c7_notfound_indistinguishable (db : DB) (uid hid : Nat) (d : Int)
    (v : Option Int) (note : Option String)
    (hnot : ∀ hb ∈ db.habits, ¬(hb.id = hid ∧ hb.user_id = uid)) :
    createCheckin db uid hid d v note = (db, .error .notFound) ∧
    getStreak db uid hid = (db, .error .notFound) := by
  have hnone : getUserHabit db uid hid = none := by
    simp only [getUserHabit, List.find?_eq_none]
    intro hb hm
    simpa using hnot hb hm
  constructor <;> simp [createCheckin, getStreak, hnone]

/-- Witness for C7: a habit owned by user 2 is invisible to user 3. -/
theorem c7_witness :
    createCheckin ⟨[⟨1, 2, "t", none, none⟩], [], []⟩ 3 1 5 none none
      = (⟨[⟨1, 2, "t", none, none⟩], [], []⟩, .error .notFound) ∧
    getStreak ⟨[⟨1, 2, "t", none, none⟩], [], []⟩ 3 1
      = (⟨[⟨1, 2, "t", none, none⟩], [], []⟩, .error .notFound) :=
  c7_notfound_indistinguishable ⟨[⟨1, 2, "t", none, none⟩], [], []⟩ 3 1 5 none none
    (by decide)

/-- C8: reading the streak of a freshly created habit succeeds and returns
`current = 0, longest = 0, last_date = null`; and for any owned habit whose
streak row is absent, the read lazily creates and returns the zeroed row. -/
theorem c8_fresh_habit_zero_streak (db : DB) (uid hid : Nat) (title : String)
    (sd : Option (List Nat)) (rt : Option Nat)
    (hfresh : findStreak db hid = none) :
    getStreak (createHabit db uid hid title sd rt).1 uid hid
      = ((createHabit db uid hid title sd rt).1, .ok ⟨hid, 0, 0, none⟩) ∧
    (∀ (db₀ : DB) (habit : Habit), getUserHabit db₀ uid hid = some habit →
      findStreak db₀ habit.id = none →
      getStreak db₀ uid hid
        = ({ db₀ with streaks := ⟨habit.id, 0, 0, none⟩ :: db₀.streaks },
           .ok ⟨habit.id, 0, 0, none⟩)) := by
  constructor
  · have hfind1 : findStreak
        { db with habits := ⟨hid, uid, title, sd, rt⟩ :: db.habits } hid = none := hfresh
    have hdb : (createHabit db uid hid title sd rt).1
        = ⟨⟨hid, uid, title, sd, rt⟩ :: db.habits, db.checkins,
           ⟨hid, 0, 0, none⟩ :: db.streaks⟩ := by
      simp [createHabit, hfind1]
    rw [hdb]
    simp [getStreak, getUserHabit, findStreak]
  · intro db₀ habit howner habsent
    simp [getStreak, howner, habsent]

/-- Witness for C8: create a habit in the empty state, then read its streak. -/
theorem c8_witness :
    getStreak (createHabit ⟨[], [], []⟩ 1 5 "read" none none).1 1 5
      = ((createHabit ⟨[], [], []⟩ 1 5 "read" none none).1, .ok ⟨5, 0, 0, none⟩) :=
  (c8_fresh_habit_zero_streak ⟨[], [], []⟩ 1 5 "read" none none rfl).1

/-- C10: for an owned habit, a create-check-in request for any calendar
date whatsoever succeeds provided no check-in exists for that
(habit, date) pair; when the date is more recent than every stored
check-in (e.g. a future date) it flows unvalidated into the streak's
`last_checkin_date`; and the only outcomes of check-in creation are
success, NotFound and Conflict. -/
theorem c10_unvalidated_date_accepted (db : DB) (uid hid : Nat) (d : Int)
    (v : Option Int) (note : Option String) (habit : Habit)
    (howner : getUserHabit db uid hid = some habit)
    (hnodup : ∀ c ∈ db.checkins, c.habit_id = hid → c.checkin_date ≠ d) :
    (createCheckin db uid hid d v note).2 = .ok ⟨hid, uid, d, v, note⟩ ∧
    ((∀ c ∈ db.checkins, c.habit_id = hid → c.checkin_date < d) →
      ∃ s, findStreak (createCheckin db uid hid d v note).1 hid = some s ∧
        s.last_checkin_date = some d) ∧
    (∀ (db₂ : DB) (uid₂ hid₂ : Nat) (d₂ : Int) (v₂ : Option Int) (n₂ : Option String),
      (∃ c, (createCheckin db₂ uid₂ hid₂ d₂ v₂ n₂).2 = .ok c) ∨
      (createCheckin db₂ uid₂ hid₂ d₂ v₂ n₂).2 = .error .notFound ∨
      (createCheckin db₂ uid₂ hid₂ d₂ v₂ n₂).2 = .error .conflict) := by
  have hids := getUserHabit_ids howner
  have hany : db.checkins.any
      (fun c => c.habit_id == habit.id && c.checkin_date == d) = false := by
    rw [hids.1, List.any_eq_false]
    intro c hc
    simp only [Bool.and_eq_true, beq_iff_eq, not_and]
    exact fun h1 => hnodup c hc h1
  have hred : createCheckin db uid hid d v note
      = ((recomputeStreak
          { db with checkins := ⟨habit.id, uid, d, v, note⟩ :: db.checkins } habit).1,
         .ok ⟨habit.id, uid, d, v, note⟩) := by
    simp [createCheckin, howner, hany]
  refine ⟨by rw [hred, hids.1], ?_, ?_⟩
  · intro hmax
    rw [hred]
    have hsid := recompute_habit_id_of_find
      { db with checkins := ⟨habit.id, uid, d, v, note⟩ :: db.checkins } habit.id
    refine ⟨(recomputeStreak
      { db with checkins := ⟨habit.id, uid, d, v, note⟩ :: db.checkins } habit).2, ?_, ?_⟩
    · rw [← hids.1]
      exact List.find?_cons_of_pos _ (by simpa using hsid)
    · show (recomputeStreakPure (checkinDates
        { db with checkins := ⟨habit.id, uid, d, v, note⟩ :: db.checkins } habit.id)
        (findStreak { db with checkins := ⟨habit.id, uid, d, v, note⟩ :: db.checkins }
          habit.id) habit.id).last_checkin_date = some d
      rw [recompute_last]
      exact checkinDates_head_of_max db habit.id ⟨habit.id, uid, d, v, note⟩ rfl
        (fun x hx hxid => hmax x hx (by rw [← hids.1]; exact hxid))
  · intro db₂ uid₂ hid₂ d₂ v₂ n₂
    rcases hg : getUserHabit db₂ uid₂ hid₂ with _ | habit₂
    · exact .inr (.inl (by simp [createCheckin, hg]))
    · cases hany₂ : db₂.checkins.any
        (fun c => c.habit_id == habit₂.id && c.checkin_date == d₂) with
      | true => exact .inr (.inr (by simp [createCheckin, hg, hany₂]))
      | false => exact .inl ⟨⟨habit₂.id, uid₂, d₂, v₂, n₂⟩, by simp [createCheckin, hg, hany₂]⟩

/-- Witness for C10: a check-in on a fresh date for an owned habit succeeds. -/
theorem c10_witness :
    (createCheckin ⟨[⟨1, 2, "t", none, none⟩], [], []⟩ 2 1 5 none none).2
      = .ok ⟨1, 2, 5, none, none⟩ :=
  (c10_unvalidated_date_accepted ⟨[⟨1, 2, "t", none, none⟩], [], []⟩ 2 1 5 none none
    ⟨1, 2, "t", none, none⟩ rfl (by simp)).1

/-- Witness for C9: two previous streak rows with equal longest value but
different current streak and last date yield the same recomputed longest. -/
theorem c9_witness :
    (recomputeStreakPure [(4 : Int), 3] (some ⟨1, 2, 5, none⟩) 1).longest_streak
      = (recomputeStreakPure [(4 : Int), 3] (some ⟨1, 9, 5, some 0⟩) 1).longest_streak :=
  (c9_deterministic_schedule_independent ⟨[], [], []⟩ ⟨1, 1, "", none, none⟩
    none none none none [(4 : Int), 3] (some ⟨1, 2, 5, none⟩) (some ⟨1, 9, 5, some 0⟩) 1
    rfl).2.2.1

end HabitBuddy
